import Mathlib

/-
Verification of the open-research frontend research-session store and
report post-processing.

The development shallowly embeds:
  * the Zustand research store of src/unnamed/part_004 (actions as an
    inductive `Action4`, state transitions as `apply4`),
  * the variant store of src/unnamed/part_005 (`Action5` / `apply5`),
  * the TraceLog heartbeat filter of
    src/frontend/src/components/TraceLog.tsx,
  * the markdown builder and the markdown-cleanup pipelines of
    src/frontend/src/components/ReportViewer.tsx
    (handleDownloadMarkdown, cleanSummary, cleanContent).

JavaScript numbers that hold the progress percentage are modelled as
rationals; JS strings are modelled as Lean `String` / `List Char`.
-/

/-- Status of an agent in the pipeline display: the TS union
'idle' | 'running' | 'completed' from the frontend types. -/
inductive AgentState where
  | idle
  | running
  | completed
deriving DecidableEq

/-- One entry of the agent-status list: `{ name, description, color, status }`. -/
structure AgentStatus where
  name : String
  description : String
  color : String
  status : AgentState
deriving DecidableEq

/-- Session status: the TS union
'idle' | 'running' | 'stopped' | 'completed' | 'error'. -/
inductive Status where
  | idle
  | running
  | stopped
  | completed
  | error
deriving DecidableEq

/-- A trace event `{type, timestamp, sessionId?, message?, details?, error?}`.
The `details` record is rendered as a list of key/value pairs; none of the
store or TraceLog code inspects it beyond passing it through. -/
structure TraceEvent where
  type : String
  timestamp : String
  sessionId : Option String
  message : Option String
  details : List (String × String)
  error : Option String
deriving DecidableEq

/-- A source `{ title?, url, reliability? }` as consumed by ReportViewer.
Optional TS string fields are Lean strings; JS falsy-default (`x || d`)
is modelled by `jsOrDefault`, which treats the empty string as falsy. -/
structure Source where
  title : String
  url : String
  reliability : String
deriving DecidableEq

/-- A report section `{ heading, content }`. -/
structure ReportSection where
  heading : String
  content : String
deriving DecidableEq

/-- The final report produced by the Writer, as read by ReportViewer:
`{ title, executive_summary, sections, sources_used, word_count,
confidence_assessment }`. -/
structure FinalReport where
  title : String
  executive_summary : String
  sections : List ReportSection
  sources_used : List Source
  word_count : Nat
  confidence_assessment : String
deriving DecidableEq

/-- The full state held by the research store: the `ResearchState` fields of
the TS `initialState` plus the extra store slices `agentStatus`, `events`
and `progress`.  The component types of `plan`, `findings` and `gaps` are
modelled from the spec (plan = list of sub-questions, findings = accumulated
summaries, gaps = optional gap report), since the frontend types module is
not part of the sources; no store action ever writes a non-initial value
into these three fields. -/
structure StoreState where
  query : String
  plan : List String
  sources : List Source
  findings : List String
  gaps : Option String
  finalReport : Option FinalReport
  iteration : Nat
  status : Status
  error : Option String
  sessionId : Option String
  agentStatus : List AgentStatus
  events : List TraceEvent
  progress : ℚ
deriving DecidableEq

/-- Modelled from the spec: the `AGENTS` constant lives in the frontend
types module, which is not among the sources; the spec names the five
workers Planner, Finder, Summarizer, Reviewer, Writer.  Descriptions and
colors are placeholders — no claim depends on them, and no store action
reads them. -/
def AGENTS : List AgentStatus :=
  [ { name := "Planner", description := "", color := "", status := .idle },
    { name := "Finder", description := "", color := "", status := .idle },
    { name := "Summarizer", description := "", color := "", status := .idle },
    { name := "Reviewer", description := "", color := "", status := .idle },
    { name := "Writer", description := "", color := "", status := .idle } ]

/-- The initial store of `create`: `...initialState`, agentStatus from
`AGENTS.map(a => ({...a}))`, `events: []`, `progress: 0`.  Identical in
part_004 and part_005. -/
def initStore : StoreState :=
  { query := ""
    plan := []
    sources := []
    findings := []
    gaps := none
    finalReport := none
    iteration := 0
    status := .idle
    error := none
    sessionId := none
    agentStatus := AGENTS
    events := []
    progress := 0 }

/-- The actions of the part_004 store. -/
inductive Action4 where
  | setQuery (q : String)
  | startResearch (sid : String)
  | stopResearch
  | completeResearch
  | setError (e : String)
  | reset
  | setAgentRunning (agentName : String)
  | setAgentCompleted (agentName : String)
  | resetAgentStatus
  | addEvent (e : TraceEvent)
  | clearEvents
  | setProgress (p : ℚ)
deriving DecidableEq

/-- The update function of part_004's `setAgentRunning`, on the agent list:
`a.name === agentName ? {...a, status:'running'} :
 a.status === 'running' ? {...a, status:'completed'} : a`. -/
def setAgentRunningMap4 (agentName : String) (l : List AgentStatus) : List AgentStatus :=
  l.map (fun a =>
    if a.name = agentName then { a with status := .running }
    else if a.status = .running then { a with status := .completed }
    else a)

/-- The update function of part_005's `setAgentRunning`, on the agent list:
an explicit if/else body marking the target agent running and any
currently running agent completed, returning `a` otherwise. -/
def setAgentRunningMap5 (agentName : String) (l : List AgentStatus) : List AgentStatus :=
  l.map (fun a =>
    if a.name = agentName then
      { a with status := .running }
    else
      if a.status = .running then
        { a with status := .completed }
      else
        a)

/-- The shared `setAgentCompleted` update on the agent list. -/
def setAgentCompletedMap (agentName : String) (l : List AgentStatus) : List AgentStatus :=
  l.map (fun a => if a.name = agentName then { a with status := .completed } else a)

/-- The shared `AGENTS.map(a => ({...a, status: 'idle'}))`. -/
def agentsAllIdle : List AgentStatus :=
  AGENTS.map (fun a => { a with status := .idle })

/-- State transition of the part_004 store.  Each action is a Zustand
`set` with a partial update merged into the current state; spreading
`initialState` resets exactly the ten `ResearchState` fields. -/
def apply4 : Action4 → StoreState → StoreState
  | .setQuery q, s => { s with query := q }
  | .startResearch sid, s =>
      -- {...initialState, sessionId, status: 'running', query: get().query}:
      -- the current query survives; agentStatus, events, progress are not touched.
      { s with plan := [], sources := [], findings := [], gaps := none,
               finalReport := none, iteration := 0, status := .running,
               error := none, sessionId := some sid }
  | .stopResearch, s => { s with status := .stopped }
  | .completeResearch, s => { s with status := .completed, progress := 100 }
  | .setError e, s => { s with status := .error, error := some e }
  | .reset, s =>
      { s with query := "", plan := [], sources := [], findings := [],
               gaps := none, finalReport := none, iteration := 0,
               status := .idle, error := none, sessionId := none,
               agentStatus := agentsAllIdle, events := [], progress := 0 }
  | .setAgentRunning n, s => { s with agentStatus := setAgentRunningMap4 n s.agentStatus }
  | .setAgentCompleted n, s => { s with agentStatus := setAgentCompletedMap n s.agentStatus }
  | .resetAgentStatus, s => { s with agentStatus := agentsAllIdle }
  | .addEvent e, s => { s with events := s.events ++ [e] }
  | .clearEvents, s => { s with events := [] }
  | .setProgress p, s => { s with progress := min 100 (max 0 p) }

/-- The actions of the part_005 store; `completeResearch` takes an optional
final report. -/
inductive Action5 where
  | setQuery (q : String)
  | startResearch (sid : String)
  | stopResearch
  | completeResearch (fr : Option FinalReport)
  | setError (e : String)
  | reset
  | setAgentRunning (agentName : String)
  | setAgentCompleted (agentName : String)
  | resetAgentStatus
  | addEvent (e : TraceEvent)
  | clearEvents
  | setProgress (p : ℚ)
deriving DecidableEq

/-- State transition of the part_005 store.  It differs from part_004 in
`startResearch` (also resets `agentStatus`) and `completeResearch`
(`finalReport: finalReport || state.finalReport`, where the optional
argument is an object and hence truthy when present). -/
def apply5 : Action5 → StoreState → StoreState
  | .setQuery q, s => { s with query := q }
  | .startResearch sid, s =>
      { s with plan := [], sources := [], findings := [], gaps := none,
               finalReport := none, iteration := 0, status := .running,
               error := none, sessionId := some sid,
               agentStatus := agentsAllIdle }
  | .stopResearch, s => { s with status := .stopped }
  | .completeResearch fr, s =>
      { s with status := .completed, progress := 100,
               finalReport := match fr with
                 | some r => some r
                 | none => s.finalReport }
  | .setError e, s => { s with status := .error, error := some e }
  | .reset, s =>
      { s with query := "", plan := [], sources := [], findings := [],
               gaps := none, finalReport := none, iteration := 0,
               status := .idle, error := none, sessionId := none,
               agentStatus := agentsAllIdle, events := [], progress := 0 }
  | .setAgentRunning n, s => { s with agentStatus := setAgentRunningMap5 n s.agentStatus }
  | .setAgentCompleted n, s => { s with agentStatus := setAgentCompletedMap n s.agentStatus }
  | .resetAgentStatus, s => { s with agentStatus := agentsAllIdle }
  | .addEvent e, s => { s with events := s.events ++ [e] }
  | .clearEvents, s => { s with events := [] }
  | .setProgress p, s => { s with progress := min 100 (max 0 p) }

/-- States of the part_004 store reachable from the initial state by any
sequence of store actions. -/
inductive Reach4 : StoreState → Prop where
  | init : Reach4 initStore
  | step (a : Action4) (s : StoreState) : Reach4 s → Reach4 (apply4 a s)

/-- States of the part_005 store reachable from the initial state by any
sequence of store actions. -/
inductive Reach5 : StoreState → Prop where
  | init : Reach5 initStore
  | step (a : Action5) (s : StoreState) : Reach5 s → Reach5 (apply5 a s)

/-- JavaScript falsy-default on strings: `x || d` yields `d` when `x` is the
empty string (or absent, encoded as the empty string), else `x`. -/
def jsOrDefault (x d : String) : String :=
  if x = "" then d else x

/-- One attempt to match the citation regex
`\[🔗([^\]]+)\]\([^)]+\)` at the head of the character list.  Returns the
captured title group and the characters after the match.  The character
classes exclude their closing delimiter, so greedy matching takes exactly
the run up to the first delimiter, with at least one character required;
when `dropWhile` leaves a non-empty list its head is that delimiter. -/
def matchCitationAt : List Char → Option (List Char × List Char)
  | [] => none
  | c :: cs =>
    if c = '[' then
      match cs with
      | [] => none
      | d :: rest =>
        if d = '🔗' then
          let title := rest.takeWhile (fun x => x != ']')
          if title = [] then none
          else
            match rest.dropWhile (fun x => x != ']') with
            | [] => none
            | _ :: r1 =>
              match r1 with
              | [] => none
              | e :: r2 =>
                if e = '(' then
                  let url := r2.takeWhile (fun x => x != ')')
                  if url = [] then none
                  else
                    match r2.dropWhile (fun x => x != ')') with
                    | [] => none
                    | _ :: r4 => some (title, r4)
                else none
        else none
    else none

theorem matchCitationAt_length {l t r : List Char} (h : matchCitationAt l = some (t, r)) :
    r.length < l.length := by
  match l with
  | [] => simp [matchCitationAt] at h
  | c :: cs =>
    simp only [matchCitationAt] at h
    split at h
    · match cs with
      | [] => simp at h
      | d :: rest =>
        simp only at h
        split at h
        · split at h
          · simp at h
          · have hd1 : (rest.dropWhile (fun x => x != ']')).length ≤ rest.length :=
              (List.dropWhile_sublist _).length_le
            split at h
            · simp at h
            · rename_i r0 heq1
              rw [heq1] at hd1
              match r0 with
              | [] => simp at h
              | e :: r2 =>
                simp only at h
                split at h
                · split at h
                  · simp at h
                  · have hd2 : (r2.dropWhile (fun x => x != ')')).length ≤ r2.length :=
                      (List.dropWhile_sublist _).length_le
                    split at h
                    · simp at h
                    · rename_i r3 heq2
                      rw [heq2] at hd2
                      simp only [Option.some.injEq, Prod.mk.injEq] at h
                      obtain ⟨-, rfl⟩ := h
                      simp only [List.length_cons] at hd1 hd2 ⊢
                      omega
                · simp at h
        · simp at h
    · simp at h

theorem matchCitationAt_none {c : Char} {cs : List Char} (h : c ≠ '[') :
    matchCitationAt (c :: cs) = none := by
  simp [matchCitationAt, h]

/-- Global (leftmost, non-overlapping) replacement of every citation match
by `repl` applied to the captured title, scanning left to right as the JS
`String.prototype.replace` with a global regex does. -/
def replaceCitations (repl : List Char → List Char) : List Char → List Char
  | [] => []
  | c :: cs =>
    match h : matchCitationAt (c :: cs) with
    | some (t, rest) => repl t ++ replaceCitations repl rest
    | none => c :: replaceCitations repl cs
termination_by l => l.length
decreasing_by
  · exact matchCitationAt_length h
  · simp [Nat.lt_succ_self]

/-- The citation-cleanup step of `cleanSummary` in ReportViewer:
`.replace(/\[🔗([^\]]+)\]\([^)]+\)/g, '$1')` — keep just the title text. -/
def stripCitationsKeepText (l : List Char) : List Char :=
  replaceCitations (fun t => t) l

/-- The citation-cleanup step of `cleanContent` in ReportViewer:
`.replace(/\[🔗([^\]]+)\]\([^)]+\)/g, '$1 (source)')`. -/
def stripCitationsWithMarker (l : List Char) : List Char :=
  replaceCitations (fun t => t ++ " (source)".toList) l

/-- Global replacement of a non-empty literal pattern `p :: ps` by `repl`,
leftmost and non-overlapping, as the JS global regex replace on a literal
pattern does. -/
def replaceAllNE (p : Char) (ps : List Char) (repl : List Char) : List Char → List Char
  | [] => []
  | c :: cs =>
    if (p :: ps).isPrefixOf (c :: cs) then
      repl ++ replaceAllNE p ps repl ((c :: cs).drop (ps.length + 1))
    else
      c :: replaceAllNE p ps repl cs
termination_by l => l.length
decreasing_by
  · simp only [List.length_drop, List.length_cons]
    omega
  · simp [Nat.lt_succ_self]

/-- Global literal replacement; the empty pattern does not occur in the
source and is mapped to the identity. -/
def replaceAllLit (pat repl : String) (l : List Char) : List Char :=
  match pat.toList with
  | [] => l
  | p :: ps => replaceAllNE p ps repl.toList l

/-- JS whitespace test for `String.prototype.trim` (the whitespace
characters that occur in this code path). -/
def isJsWs (c : Char) : Bool :=
  c == ' ' || c == '\n' || c == '\t' || c == '\r'

/-- JS `String.prototype.trim`: drop leading and trailing whitespace. -/
def jsTrim (l : List Char) : List Char :=
  ((l.dropWhile isJsWs).reverse.dropWhile isJsWs).reverse

/-- The `cleanSummary` pipeline of `handleDownloadPDF` applied to the
executive summary: strip citations keeping the title, remove `**`, remove
`*`, remove `#`, collapse `\n\n` to `\n`, and trim. -/
def cleanSummary (s : String) : String :=
  String.mk (jsTrim (replaceAllLit "\n\n" "\n"
    (replaceAllLit "#" "" (replaceAllLit "*" "" (replaceAllLit "**" ""
      (stripCitationsKeepText s.toList))))))

/-- The `cleanContent` pipeline of `handleDownloadPDF` applied to a section
content: like `cleanSummary` but citations are replaced by the title
followed by a literal " (source)". -/
def cleanContent (s : String) : String :=
  String.mk (jsTrim (replaceAllLit "\n\n" "\n"
    (replaceAllLit "#" "" (replaceAllLit "*" "" (replaceAllLit "**" ""
      (stripCitationsWithMarker s.toList))))))

/-- One line of the markdown source list:
`${i + 1}. [${s.title || 'Untitled'}](${s.url}) - ${s.reliability || 'unknown'}`. -/
def markdownSourceLine (i : Nat) (s : Source) : String :=
  toString (i + 1) ++ ". [" ++ jsOrDefault s.title "Untitled" ++ "](" ++ s.url ++ ") - " ++
    jsOrDefault s.reliability "unknown"

/-- One section block of the markdown template:
a template literal starting and ending with a newline. -/
def markdownSectionBlock (s : ReportSection) : String :=
  "\n## " ++ s.heading ++ "\n\n" ++ s.content ++ "\n"

/-- The markdown document built by `handleDownloadMarkdown` from the final
report, reproducing its template literal character for character. -/
def buildMarkdown (r : FinalReport) : String :=
  "# " ++ r.title ++ "\n\n" ++ r.executive_summary ++
    "\n\n## Report Details\n\n**Word Count:** " ++ toString r.word_count ++
    "\n**Sources Used:** " ++ toString r.sources_used.length ++
    "\n**Confidence:** " ++ r.confidence_assessment ++ "\n\n" ++
    String.intercalate "\n" (r.sections.map markdownSectionBlock) ++
    "\n\n## Sources\n\n" ++
    String.intercalate "\n" (r.sources_used.mapIdx markdownSourceLine) ++ "\n"

/-- The TraceLog display list: `events.filter(e => e.type !== 'heartbeat')`. -/
def displayEvents (events : List TraceEvent) : List TraceEvent :=
  events.filter (fun e => e.type != "heartbeat")

/-- The event count shown by TraceLog: `displayEvents.length`. -/
def displayCount (events : List TraceEvent) : Nat :=
  (displayEvents events).length

theorem reach4_invariant {s : StoreState} (h : Reach4 s) :
    s.finalReport = none ∧ (s.status = .running → s.error = none) ∧
    s.iteration = 0 ∧ 0 ≤ s.progress ∧ s.progress ≤ 100 := by
  induction h with
  | init => exact ⟨rfl, fun _ => rfl, rfl, le_refl 0, (by norm_num : (0:ℚ) ≤ 100)⟩
  | step a s hs ih =>
    obtain ⟨h1, h2, h3, h4, h5⟩ := ih
    cases a with
    | setQuery q => exact ⟨h1, h2, h3, h4, h5⟩
    | startResearch sid => exact ⟨rfl, fun _ => rfl, rfl, h4, h5⟩
    | stopResearch => exact ⟨h1, fun hc => Status.noConfusion hc, h3, h4, h5⟩
    | completeResearch =>
        exact ⟨h1, fun hc => Status.noConfusion hc, h3,
          (by norm_num : (0:ℚ) ≤ 100), le_refl (100:ℚ)⟩
    | setError e => exact ⟨h1, fun hc => Status.noConfusion hc, h3, h4, h5⟩
    | reset => exact ⟨rfl, fun _ => rfl, rfl, le_refl 0, (by norm_num : (0:ℚ) ≤ 100)⟩
    | setAgentRunning n => exact ⟨h1, h2, h3, h4, h5⟩
    | setAgentCompleted n => exact ⟨h1, h2, h3, h4, h5⟩
    | resetAgentStatus => exact ⟨h1, h2, h3, h4, h5⟩
    | addEvent e => exact ⟨h1, h2, h3, h4, h5⟩
    | clearEvents => exact ⟨h1, h2, h3, h4, h5⟩
    | setProgress p =>
        exact ⟨h1, h2, h3, le_min (by norm_num) (le_max_left 0 p), min_le_left 100 _⟩

theorem reach5_invariant {s : StoreState} (h : Reach5 s) :
    (s.status = .running → s.finalReport = none ∧ s.error = none) ∧
    s.iteration = 0 ∧ 0 ≤ s.progress ∧ s.progress ≤ 100 := by
  induction h with
  | init => exact ⟨fun _ => ⟨rfl, rfl⟩, rfl, le_refl 0, (by norm_num : (0:ℚ) ≤ 100)⟩
  | step a s hs ih =>
    obtain ⟨h1, h2, h3, h4⟩ := ih
    cases a with
    | setQuery q => exact ⟨h1, h2, h3, h4⟩
    | startResearch sid => exact ⟨fun _ => ⟨rfl, rfl⟩, rfl, h3, h4⟩
    | stopResearch => exact ⟨fun hc => Status.noConfusion hc, h2, h3, h4⟩
    | completeResearch fr =>
        exact ⟨fun hc => Status.noConfusion hc, h2,
          (by norm_num : (0:ℚ) ≤ 100), le_refl (100:ℚ)⟩
    | setError e => exact ⟨fun hc => Status.noConfusion hc, h2, h3, h4⟩
    | reset => exact ⟨fun _ => ⟨rfl, rfl⟩, rfl, le_refl 0, (by norm_num : (0:ℚ) ≤ 100)⟩
    | setAgentRunning n => exact ⟨h1, h2, h3, h4⟩
    | setAgentCompleted n => exact ⟨h1, h2, h3, h4⟩
    | resetAgentStatus => exact ⟨h1, h2, h3, h4⟩
    | addEvent e => exact ⟨h1, h2, h3, h4⟩
    | clearEvents => exact ⟨h1, h2, h3, h4⟩
    | setProgress p =>
        exact ⟨h1, h2, le_min (by norm_num) (le_max_left 0 p), min_le_left 100 _⟩

/-- C1 (amended).  In every reachable state of either store version,
`status = running` implies that `finalReport` and `error` are both null;
and in the part_004 store they are never both non-null (there `finalReport`
is never written at all).  A terminal status does not guarantee that one of
them is set: stopping a running session leaves both null. -/
theorem researchStore_running_no_outcome :
    (∀ s : StoreState, Reach4 s →
      (s.status = .running → s.finalReport = none ∧ s.error = none) ∧
      ¬(s.finalReport ≠ none ∧ s.error ≠ none)) ∧
    (∀ s : StoreState, Reach5 s →
      s.status = .running → s.finalReport = none ∧ s.error = none) := by
  constructor
  · intro s h
    obtain ⟨h1, h2, -⟩ := reach4_invariant h
    exact ⟨fun hr => ⟨h1, h2 hr⟩, fun hc => hc.1 h1⟩
  · intro s h
    exact (reach5_invariant h).1

/-- C1 counterexample: the reachable part_004 state obtained by starting a
session and then stopping it has terminal status `stopped`, yet neither
`finalReport` nor `error` is set — refuting "exactly one of {finalReport,
error} is non-null once status is terminal". -/
theorem researchStore_running_no_outcome_counterexample :
    Reach4 (apply4 .stopResearch (apply4 (.startResearch "a") initStore)) ∧
    (apply4 .stopResearch (apply4 (.startResearch "a") initStore)).status = .stopped ∧
    (apply4 .stopResearch (apply4 (.startResearch "a") initStore)).finalReport = none ∧
    (apply4 .stopResearch (apply4 (.startResearch "a") initStore)).error = none :=
  ⟨.step _ _ (.step _ _ .init), rfl, rfl, rfl⟩

/-- Witness for C1's amended theorem at the concrete running state reached
by `startResearch "a"` from the initial state. -/
theorem researchStore_running_no_outcome_witness :
    (apply4 (.startResearch "a") initStore).finalReport = none ∧
    (apply4 (.startResearch "a") initStore).error = none :=
  (researchStore_running_no_outcome.1 _ (.step _ _ .init)).1 rfl

/-- C2 (amended).  `stopResearch` always merges exactly `{status: stopped}`
into the state — every other field is left unchanged — and it is idempotent
once the status is already `stopped`: in that case it leaves the state
entirely unchanged.  On the other terminal statuses (`completed`, `error`)
it does change the status to `stopped`. -/
theorem stopResearch_only_status :
    ∀ s : StoreState,
      (apply4 .stopResearch s).status = .stopped ∧
      apply4 .stopResearch s = { s with status := .stopped } ∧
      (s.status = .stopped → apply4 .stopResearch s = s) := by
  intro s
  refine ⟨rfl, rfl, fun h => ?_⟩
  cases s with
  | mk q pl so fi ga fr it st er si ag ev pr =>
    cases st with
    | stopped => rfl
    | idle => exact Status.noConfusion h
    | running => exact Status.noConfusion h
    | completed => exact Status.noConfusion h
    | error => exact Status.noConfusion h

/-- C2 counterexample: on the reachable part_004 state with terminal status
`completed`, `stopResearch` does not leave the state unchanged — it moves
the status to `stopped`. -/
theorem stopResearch_only_status_counterexample :
    Reach4 (apply4 .completeResearch (apply4 (.startResearch "a") initStore)) ∧
    (apply4 .completeResearch (apply4 (.startResearch "a") initStore)).status = .completed ∧
    apply4 .stopResearch (apply4 .completeResearch (apply4 (.startResearch "a") initStore)) ≠
      apply4 .completeResearch (apply4 (.startResearch "a") initStore) := by
  refine ⟨.step _ _ (.step _ _ .init), rfl, fun hc => ?_⟩
  exact Status.noConfusion (congrArg StoreState.status hc)

/-- Witness for C2's amended theorem: applying it at a concrete state whose
status is already `stopped` discharges the idempotence hypothesis. -/
theorem stopResearch_only_status_witness :
    apply4 .stopResearch (apply4 .stopResearch initStore) = apply4 .stopResearch initStore :=
  (stopResearch_only_status (apply4 .stopResearch initStore)).2.2 rfl

/-- C3.  In every state of either store version reachable by any sequence
of store actions, `iteration` never exceeds the configured default bound 3
(in fact no frontend store action ever writes `iteration`, so it stays 0). -/
theorem researchStore_iteration_le_maxIterations :
    (∀ s : StoreState, Reach4 s → s.iteration ≤ 3) ∧
    (∀ s : StoreState, Reach5 s → s.iteration ≤ 3) :=
  ⟨fun s h => le_of_eq_of_le (reach4_invariant h).2.2.1 (by norm_num),
   fun s h => le_of_eq_of_le (reach5_invariant h).2.1 (by norm_num)⟩

/-- Witness for C3 at concrete reachable states of both store versions. -/
theorem researchStore_iteration_le_maxIterations_witness :
    initStore.iteration ≤ 3 ∧ (apply5 (.startResearch "a") initStore).iteration ≤ 3 :=
  ⟨researchStore_iteration_le_maxIterations.1 initStore .init,
   researchStore_iteration_le_maxIterations.2 _ (.step _ _ .init)⟩

/-- C4.  `stopResearch` is idempotent on every store state, in both store
versions: applying it twice equals applying it once. -/
theorem stopResearch_idempotent :
    (∀ s : StoreState, apply4 .stopResearch (apply4 .stopResearch s) = apply4 .stopResearch s) ∧
    (∀ s : StoreState, apply5 .stopResearch (apply5 .stopResearch s) = apply5 .stopResearch s) :=
  ⟨fun _ => rfl, fun _ => rfl⟩

/-- C5.  `addEvent e` appends `e` at the tail of the event list, and every
store action other than `addEvent`, `clearEvents` and `reset` leaves the
event list exactly as it was — no removal and no reordering. -/
theorem addEvent_appends_and_others_preserve :
    (∀ (s : StoreState) (e : TraceEvent), (apply4 (.addEvent e) s).events = s.events ++ [e]) ∧
    (∀ (s : StoreState) (q : String), (apply4 (.setQuery q) s).events = s.events) ∧
    (∀ (s : StoreState) (sid : String), (apply4 (.startResearch sid) s).events = s.events) ∧
    (∀ s : StoreState, (apply4 .stopResearch s).events = s.events) ∧
    (∀ s : StoreState, (apply4 .completeResearch s).events = s.events) ∧
    (∀ (s : StoreState) (e : String), (apply4 (.setError e) s).events = s.events) ∧
    (∀ (s : StoreState) (n : String), (apply4 (.setAgentRunning n) s).events = s.events) ∧
    (∀ (s : StoreState) (n : String), (apply4 (.setAgentCompleted n) s).events = s.events) ∧
    (∀ s : StoreState, (apply4 .resetAgentStatus s).events = s.events) ∧
    (∀ (s : StoreState) (p : ℚ), (apply4 (.setProgress p) s).events = s.events) :=
  ⟨fun _ _ => rfl, fun _ _ => rfl, fun _ _ => rfl, fun _ => rfl, fun _ => rfl,
   fun _ _ => rfl, fun _ _ => rfl, fun _ _ => rfl, fun _ => rfl, fun _ _ => rfl⟩

/-- C8.  In every reachable part_004 store state the progress value lies in
[0, 100]; `setProgress p` stores the clamp `min 100 (max 0 p)`; and every
other action either leaves progress unchanged or sets it to 0 or 100
(`completeResearch` sets 100, `reset` sets 0, the rest do not touch it). -/
theorem progress_bounds :
    (∀ s : StoreState, Reach4 s → 0 ≤ s.progress ∧ s.progress ≤ 100) ∧
    (∀ (s : StoreState) (p : ℚ), (apply4 (.setProgress p) s).progress = min 100 (max 0 p)) ∧
    (∀ s : StoreState, (apply4 .completeResearch s).progress = 100) ∧
    (∀ s : StoreState, (apply4 .reset s).progress = 0) ∧
    (∀ (s : StoreState) (q : String), (apply4 (.setQuery q) s).progress = s.progress) ∧
    (∀ (s : StoreState) (sid : String), (apply4 (.startResearch sid) s).progress = s.progress) ∧
    (∀ s : StoreState, (apply4 .stopResearch s).progress = s.progress) ∧
    (∀ (s : StoreState) (e : String), (apply4 (.setError e) s).progress = s.progress) ∧
    (∀ (s : StoreState) (n : String), (apply4 (.setAgentRunning n) s).progress = s.progress) ∧
    (∀ (s : StoreState) (n : String), (apply4 (.setAgentCompleted n) s).progress = s.progress) ∧
    (∀ s : StoreState, (apply4 .resetAgentStatus s).progress = s.progress) ∧
    (∀ (s : StoreState) (e : TraceEvent), (apply4 (.addEvent e) s).progress = s.progress) ∧
    (∀ s : StoreState, (apply4 .clearEvents s).progress = s.progress) :=
  ⟨fun _ h => (reach4_invariant h).2.2.2,
   fun _ _ => rfl, fun _ => rfl, fun _ => rfl, fun _ _ => rfl, fun _ _ => rfl,
   fun _ => rfl, fun _ _ => rfl, fun _ _ => rfl, fun _ _ => rfl, fun _ => rfl,
   fun _ _ => rfl, fun _ => rfl⟩

/-- Witness for C8 at a concrete reachable state (after clamping an
out-of-range update). -/
theorem progress_bounds_witness :
    0 ≤ (apply4 (.setProgress 250) initStore).progress ∧
    (apply4 (.setProgress 250) initStore).progress ≤ 100 :=
  progress_bounds.1 _ (.step _ _ .init)

/-- C10.  The part_004 and part_005 implementations of `setAgentRunning`
are extensionally equal: on every agent-status list and every agent name
they produce identical updated lists. -/
theorem setAgentRunning_impls_agree :
    ∀ (agentName : String) (l : List AgentStatus),
      setAgentRunningMap4 agentName l = setAgentRunningMap5 agentName l :=
  fun _ _ => rfl

theorem takeWhile_append_stop (stop : Char) {t : List Char} (r : List Char) (h : stop ∉ t) :
    (t ++ stop :: r).takeWhile (fun x => x != stop) = t := by
  induction t with
  | nil => simp [List.takeWhile]
  | cons a t ih =>
    have ha : (a != stop) = true := by
      simp only [bne_iff_ne, ne_eq]
      intro he
      exact h (he ▸ List.mem_cons_self a t)
    simp only [List.cons_append, List.takeWhile_cons, ha, if_true]
    rw [ih (fun hm => h (List.mem_cons_of_mem _ hm))]

theorem dropWhile_append_stop (stop : Char) {t : List Char} (r : List Char) (h : stop ∉ t) :
    (t ++ stop :: r).dropWhile (fun x => x != stop) = stop :: r := by
  induction t with
  | nil => simp [List.dropWhile]
  | cons a t ih =>
    have ha : (a != stop) = true := by
      simp only [bne_iff_ne, ne_eq]
      intro he
      exact h (he ▸ List.mem_cons_self a t)
    simp only [List.cons_append, List.dropWhile_cons, ha, if_true]
    exact ih (fun hm => h (List.mem_cons_of_mem _ hm))

theorem matchCitationAt_citation {t u : List Char} (post : List Char)
    (ht : t ≠ []) (htn : ']' ∉ t) (hu : u ≠ []) (hun : ')' ∉ u) :
    matchCitationAt ('[' :: '🔗' :: (t ++ ']' :: '(' :: (u ++ ')' :: post))) =
      some (t, post) := by
  simp only [matchCitationAt, if_pos rfl]
  rw [takeWhile_append_stop ']' _ htn, dropWhile_append_stop ']' _ htn]
  simp only [ht, if_neg, ite_false]
  rw [takeWhile_append_stop ')' _ hun, dropWhile_append_stop ')' _ hun]
  simp [hu]

theorem replaceCitations_nil (repl : List Char → List Char) :
    replaceCitations repl [] = [] := by
  simp [replaceCitations]

theorem replaceCitations_cons_none (repl : List Char → List Char) {c : Char}
    {cs : List Char} (h : matchCitationAt (c :: cs) = none) :
    replaceCitations repl (c :: cs) = c :: replaceCitations repl cs := by
  rw [replaceCitations]
  split
  · rename_i t rest heq
    rw [h] at heq
    exact Option.noConfusion heq
  · rfl

theorem replaceCitations_cons_some (repl : List Char → List Char) {c : Char}
    {cs t rest : List Char} (h : matchCitationAt (c :: cs) = some (t, rest)) :
    replaceCitations repl (c :: cs) = repl t ++ replaceCitations repl rest := by
  rw [replaceCitations]
  split
  · rename_i t' rest' heq
    rw [h] at heq
    simp only [Option.some.injEq, Prod.mk.injEq] at heq
    obtain ⟨rfl, rfl⟩ := heq
    rfl
  · rename_i heq
    rw [h] at heq
    exact Option.noConfusion heq

theorem replaceCitations_no_bracket (repl : List Char → List Char) {l : List Char}
    (h : '[' ∉ l) : replaceCitations repl l = l := by
  induction l with
  | nil => exact replaceCitations_nil repl
  | cons c cs ih =>
    have hc : c ≠ '[' := fun he => h (he ▸ List.mem_cons_self c cs)
    rw [replaceCitations_cons_none repl (matchCitationAt_none hc),
        ih (fun hm => h (List.mem_cons_of_mem _ hm))]

theorem replaceCitations_skip (repl : List Char → List Char) {pre : List Char}
    (rest : List Char) (h : '[' ∉ pre) :
    replaceCitations repl (pre ++ rest) = pre ++ replaceCitations repl rest := by
  induction pre with
  | nil => simp
  | cons c cs ih =>
    have hc : c ≠ '[' := fun he => h (he ▸ List.mem_cons_self c cs)
    rw [List.cons_append, replaceCitations_cons_none repl (matchCitationAt_none hc),
        ih (fun hm => h (List.mem_cons_of_mem _ hm))]
    rfl

/-- C6 (amended).  For a text containing one citation `[🔗Title](URL)`
surrounded by citation-free prose, the `cleanSummary` citation step
replaces the citation markup by exactly the captured title text, leaving
every other character unchanged; the `cleanContent` citation step does the
same but appends a literal " (source)" marker after the title.  The side
conditions mirror the regex: the title is a non-empty run without `]`, the
URL a non-empty run without `)`, and the surrounding prose contains no
`[`. -/
theorem citation_cleanup_preserves_prose :
    ∀ (pre t u post : List Char),
      '[' ∉ pre → t ≠ [] → ']' ∉ t → u ≠ [] → ')' ∉ u → '[' ∉ post →
      stripCitationsKeepText
          (pre ++ '[' :: '🔗' :: (t ++ ']' :: '(' :: (u ++ ')' :: post))) =
        pre ++ t ++ post ∧
      stripCitationsWithMarker
          (pre ++ '[' :: '🔗' :: (t ++ ']' :: '(' :: (u ++ ')' :: post))) =
        pre ++ t ++ " (source)".toList ++ post := by
  intro pre t u post h1 h2 h3 h4 h5 h6
  constructor
  · unfold stripCitationsKeepText
    rw [replaceCitations_skip _ _ h1,
        replaceCitations_cons_some _ (matchCitationAt_citation post h2 h3 h4 h5),
        replaceCitations_no_bracket _ h6]
    simp [List.append_assoc]
  · unfold stripCitationsWithMarker
    rw [replaceCitations_skip _ _ h1,
        replaceCitations_cons_some _ (matchCitationAt_citation post h2 h3 h4 h5),
        replaceCitations_no_bracket _ h6]
    simp [List.append_assoc]

/-- C6 counterexample: on the input "a[🔗T](u)b" the `cleanContent`
citation-cleanup step of handleDownloadPDF yields "aT (source)b", not the
"aTb" that "markup removed, title preserved, all other characters
unchanged" demands — it inserts the marker " (source)". -/
theorem citation_cleanup_preserves_prose_counterexample :
    stripCitationsWithMarker "a[🔗T](u)b".toList = "aT (source)b".toList ∧
    "aT (source)b".toList ≠ "aTb".toList := by
  constructor
  · simp [stripCitationsWithMarker, replaceCitations, matchCitationAt,
      List.dropWhile, List.takeWhile]
  · decide

/-- Witness for C6's amended theorem at a concrete citation instance. -/
theorem citation_cleanup_preserves_prose_witness :
    stripCitationsKeepText
        ("see ".toList ++ '[' :: '🔗' ::
          ("Title".toList ++ ']' :: '(' :: ("http://x".toList ++ ')' :: " end".toList))) =
      "see ".toList ++ "Title".toList ++ " end".toList ∧
    stripCitationsWithMarker
        ("see ".toList ++ '[' :: '🔗' ::
          ("Title".toList ++ ']' :: '(' :: ("http://x".toList ++ ')' :: " end".toList))) =
      "see ".toList ++ "Title".toList ++ " (source)".toList ++ " end".toList :=
  citation_cleanup_preserves_prose _ _ _ _
    (by decide) (by decide) (by decide) (by decide) (by decide) (by decide)

/-- C7.  Report post-processing is modelled by the pure functions
`buildMarkdown`, `cleanSummary` and `cleanContent` of the report data
alone, so two runs on equal inputs produce identical outputs: the rendered
markdown document and the cleaned section texts coincide. -/
theorem report_postprocessing_deterministic :
    ∀ r₁ r₂ : FinalReport, r₁ = r₂ →
      buildMarkdown r₁ = buildMarkdown r₂ ∧
      cleanSummary r₁.executive_summary = cleanSummary r₂.executive_summary ∧
      r₁.sections.map (fun sec => cleanContent sec.content) =
        r₂.sections.map (fun sec => cleanContent sec.content) := by
  intro r₁ r₂ h
  subst h
  exact ⟨rfl, rfl, rfl⟩

/-- A concrete final report used to instantiate the determinism theorem. -/
def sampleFinalReport : FinalReport :=
  { title := "Sample Report"
    executive_summary := "Summary with a citation [🔗 S](http://s) here."
    sections := [{ heading := "Background", content := "Body [🔗 S](http://s) text." }]
    sources_used := [{ title := "S", url := "http://s", reliability := "high" }]
    word_count := 42
    confidence_assessment := "High confidence." }

/-- Witness for C7 on a concrete report, discharging the equal-input
hypothesis with `rfl`. -/
theorem report_postprocessing_deterministic_witness :
    buildMarkdown sampleFinalReport = buildMarkdown sampleFinalReport ∧
    cleanSummary sampleFinalReport.executive_summary =
      cleanSummary sampleFinalReport.executive_summary ∧
    sampleFinalReport.sections.map (fun sec => cleanContent sec.content) =
      sampleFinalReport.sections.map (fun sec => cleanContent sec.content) :=
  report_postprocessing_deterministic sampleFinalReport sampleFinalReport rfl

/-- C9.  The TraceLog display list is the event list with every heartbeat
event removed and nothing else: it is empty on the empty list, appending a
non-heartbeat event appends it to the display while appending a heartbeat
leaves the display unchanged, an event is displayed iff it occurs in the
input and is not a heartbeat, the display is an order-preserving sublist of
the input, and the displayed count is the length of the filtered list. -/
theorem traceLog_filters_heartbeats :
    ∀ (es : List TraceEvent) (e : TraceEvent),
      displayEvents ([] : List TraceEvent) = [] ∧
      displayEvents (es ++ [e]) =
        displayEvents es ++ (if e.type = "heartbeat" then [] else [e]) ∧
      (e ∈ displayEvents es ↔ e ∈ es ∧ e.type ≠ "heartbeat") ∧
      List.Sublist (displayEvents es) es ∧
      displayCount es = (displayEvents es).length := by
  intro es e
  refine ⟨rfl, ?_, ?_, List.filter_sublist es, rfl⟩
  · by_cases h : e.type = "heartbeat" <;>
      simp [displayEvents, List.filter_append, List.filter_cons, h]
  · simp [displayEvents, List.mem_filter, bne_iff_ne]

/-- Witness for C9 on a concrete event list containing one heartbeat. -/
theorem traceLog_filters_heartbeats_witness :
    displayEvents ([⟨"research_started", "t1", none, none, [], none⟩] ++
        [⟨"heartbeat", "t2", none, none, [], none⟩]) =
      displayEvents [⟨"research_started", "t1", none, none, [], none⟩] ++ [] := by
  have h := (traceLog_filters_heartbeats
    [⟨"research_started", "t1", none, none, [], none⟩]
    ⟨"heartbeat", "t2", none, none, [], none⟩).2.1
  simpa using h
